import Mathlib

/-!
Shallow embedding of the blob-harvest / blob-compete reinforcement-learning
core of this repository (src/blob_harvest/blob_env.py,
src/blob_harvest/train_blob.py, src/ml/blob_compete/blob_env.py).

Real-valued quantities of the source are modelled as rationals.  The
transcendental library calls (numpy sin, cos, arctan2, sqrt) are not part of
this repository; they are passed in as an abstract `Trig` bundle so that
every definition stays executable and the theorems hold for every
interpretation of those calls.  Seeded numpy randomness is modelled as an
explicit stream of draws consumed through a counter carried in the
environment state, which is the observable content of a fixed seed.
-/

/-- Abstract interpretation of the transcendental numpy functions used by the
environments. -/
structure Trig where
  sin : ℚ → ℚ
  cos : ℚ → ℚ
  atan2 : ℚ → ℚ → ℚ
  sqrt : ℚ → ℚ

/-- A 2D point, as the numpy length-2 arrays of the source. -/
abbrev Vec2 : Type := ℚ × ℚ

/-- Python float modulo with a positive modulus: a - b * floor (a / b),
the wrap-around applied to agent positions. -/
def qmod (a b : ℚ) : ℚ := a - b * (⌊a / b⌋ : ℚ)

/-- np.linalg.norm (a - b) for 2D points. -/
def distQ (t : Trig) (a b : Vec2) : ℚ :=
  t.sqrt ((a.1 - b.1) ^ 2 + (a.2 - b.2) ^ 2)

/-- Angle renormalization to [-pi, pi]: np.arctan2 (np.sin x) (np.cos x). -/
def wrapA (t : Trig) (x : ℚ) : ℚ := t.atan2 (t.sin x) (t.cos x)

/-! ## Replay buffer (src/blob_harvest/train_blob.py, class ReplayBuffer)

The buffer is a `collections.deque` with `maxlen = capacity`; `push` appends
on the right and the deque drops from the left whatever exceeds the capacity.
-/

/-- One `push` on a deque of maximal length `cap`: append, then drop from the
left down to the capacity. -/
def dequePush {α : Type} (cap : ℕ) (buf : List α) (x : α) : List α :=
  let l := buf ++ [x]
  l.drop (l.length - cap)

/-- A whole sequence of `push` calls, oldest first. -/
def pushMany {α : Type} (cap : ℕ) (buf : List α) (xs : List α) : List α :=
  xs.foldl (dequePush cap) buf

/-! ## DQN network and agent (src/blob_harvest/train_blob.py) -/

/-- max x 0, the elementwise torch.relu. -/
def relu (x : ℚ) : ℚ := max x 0

/-- One nn.Linear layer: weight matrix (row per output), bias vector. -/
def matVec (w : List (List ℚ)) (b : List ℚ) (x : List ℚ) : List ℚ :=
  (w.zip b).map (fun rb => (rb.1.zip x).foldl (fun acc p => acc + p.1 * p.2) 0 + rb.2)

/-- Parameters of the DQN: three weight/bias pairs (fc1, fc2, fc3). -/
structure DQNParams where
  w1 : List (List ℚ)
  b1 : List ℚ
  w2 : List (List ℚ)
  b2 : List ℚ
  w3 : List (List ℚ)
  b3 : List ℚ
deriving DecidableEq

/-- DQN.forward: fc3 (relu (fc2 (relu (fc1 x)))). -/
def dqnForward (p : DQNParams) (x : List ℚ) : List ℚ :=
  matVec p.w3 p.b3 (((matVec p.w2 p.b2 ((matVec p.w1 p.b1 x).map relu)).map relu))

/-- Largest entry of a list of Q-values (torch .max over the action axis;
the action axis of the source network is never empty). -/
def listMax : List ℚ → ℚ
  | [] => 0
  | x :: xs => xs.foldl max x

/-- One stored experience (state, action, reward, next_state, done); the done
flag is pushed as float(done), hence a rational that is 0 or 1. -/
structure Transition where
  state : List ℚ
  action : ℕ
  reward : ℚ
  next_state : List ℚ
  done : ℚ
deriving DecidableEq

/-- Agent state: discount, epsilon schedule, live network, frozen target
network, replay buffer with its deque capacity. -/
structure BlobDQNAgent where
  gamma : ℚ
  epsilon : ℚ
  epsilon_end : ℚ
  epsilon_decay : ℚ
  q_network : DQNParams
  target_network : DQNParams
  replay_buffer : List Transition
  buffer_capacity : ℕ
deriving DecidableEq

/-- The Bellman regression target of one transition:
reward + (1 - done) * gamma * max Q_target (next_state), line 122 of
src/blob_harvest/train_blob.py. -/
def bellmanTarget (tgt : DQNParams) (gamma : ℚ) (tr : Transition) : ℚ :=
  tr.reward + (1 - tr.done) * gamma * listMax (dqnForward tgt tr.next_state)

/-- target_q_values for a whole sampled batch. -/
def computeTargets (tgt : DQNParams) (gamma : ℚ) (batch : List Transition) : List ℚ :=
  batch.map (bellmanTarget tgt gamma)

/-- current_q_values: the live network's Q-value of the taken action
(the gather of line 117). -/
def currentQs (live : DQNParams) (batch : List Transition) : List ℚ :=
  batch.map (fun tr => (dqnForward live tr.state).getD tr.action 0)

/-- nn.MSELoss between predictions and targets. -/
def mseLoss (pred tgt : List ℚ) : ℚ :=
  ((pred.zip tgt).foldl (fun acc p => acc + (p.1 - p.2) ^ 2) 0) / (pred.length : ℚ)

/-- BlobDQNAgent.train.  The uniform random batch drawn by random.sample and
the torch backward/Adam parameter update are external to this repository;
they enter as the `batch` argument and the abstract `optStep` function.  The
guard, the target formula, the loss and which network feeds which term are
the source's lines 101-131. -/
def train (optStep : DQNParams → List Transition → DQNParams)
    (agent : BlobDQNAgent) (batchSize : ℕ) (batch : List Transition) :
    Option ℚ × BlobDQNAgent :=
  if agent.replay_buffer.length < batchSize then (none, agent)
  else
    let currents := currentQs agent.q_network batch
    let targets := computeTargets agent.target_network agent.gamma batch
    let loss := mseLoss currents targets
    (some loss, { agent with q_network := optStep agent.q_network batch })

/-- BlobDQNAgent.decay_epsilon: epsilon := max epsilon_end (epsilon * epsilon_decay). -/
def decayEpsilon (a : BlobDQNAgent) : BlobDQNAgent :=
  { a with epsilon := max a.epsilon_end (a.epsilon * a.epsilon_decay) }

/-- n successive decay_epsilon calls. -/
def decayIter (a : BlobDQNAgent) : ℕ → BlobDQNAgent
  | 0 => a
  | n + 1 => decayEpsilon (decayIter a n)

/-! ## Solo harvesting environment (src/blob_harvest/blob_env.py, class BlobEnv) -/

/-- Full state of BlobEnv: the constructor parameters followed by the mutable
episode state.  Food respawn draws of np_random are consumed from an external
stream through rng_ctr. -/
structure BlobEnv where
  map_size : ℚ
  initial_mass : ℚ
  mass_decay_rate : ℚ
  movement_speed : ℚ
  turn_rate : ℚ
  food_mass_gain : ℚ
  min_mass : ℚ
  max_foods : ℕ
  agent_radius : ℚ
  agent_pos : Vec2
  agent_angle : ℚ
  agent_mass : ℚ
  foods : List Vec2
  steps : ℕ
  max_steps : ℕ
  foods_collected : ℕ
  prev_distance_to_food : Option ℚ
  rng_ctr : ℕ
deriving DecidableEq

/-- min over the distances from p to the foods, with the source's 0.0
fallback for an empty food list. -/
def minDist (t : Trig) (p : Vec2) (foods : List Vec2) : ℚ :=
  match foods.map (distQ t p) with
  | [] => 0
  | d :: ds => ds.foldl min d

/-- The closest food and its distance (np.argmin keeps the first minimum). -/
def closestFood (t : Trig) (p : Vec2) : List Vec2 → Option (Vec2 × ℚ)
  | [] => none
  | f :: fs =>
    some (fs.foldl
      (fun b g => let dg := distQ t p g; if dg < b.2 then (g, dg) else b)
      (f, distQ t p f))

/-- The pickup loop of BlobEnv.step: walk the food list, each food within
agent_radius + 1.0 of the agent is removed and counted; returns the kept
foods and the number of hits. -/
def soloPickup (t : Trig) (p : Vec2) (r : ℚ) : List Vec2 → List Vec2 × ℕ
  | [] => ([], 0)
  | f :: fs =>
    let rest := soloPickup t p r fs
    if distQ t p f < r + 1 then (rest.1, rest.2 + 1) else (f :: rest.1, rest.2)

/-- The new heading after steering: +turn_rate on action 0, -turn_rate on any
other value, re-wrapped to [-pi, pi]. -/
def soloNewAngle (t : Trig) (e : BlobEnv) (a : ℤ) : ℚ :=
  wrapA t (if a = 0 then e.agent_angle + e.turn_rate else e.agent_angle - e.turn_rate)

/-- The new position: move forward along the new heading, wrap both
coordinates modulo map_size. -/
def soloNewPos (t : Trig) (e : BlobEnv) (a : ℤ) : Vec2 :=
  (qmod (e.agent_pos.1 + e.movement_speed * t.cos (soloNewAngle t e a)) e.map_size,
   qmod (e.agent_pos.2 + e.movement_speed * t.sin (soloNewAngle t e a)) e.map_size)

/-- BlobEnv._get_observation. -/
def soloObs (t : Trig) (e : BlobEnv) : List ℚ :=
  let cf : Vec2 × ℚ :=
    match closestFood t e.agent_pos e.foods with
    | some fd => fd
    | none => (e.agent_pos, 0)
  let dir : Vec2 := (cf.1.1 - e.agent_pos.1, cf.1.2 - e.agent_pos.2)
  let rel := wrapA t (t.atan2 dir.2 dir.1 - e.agent_angle)
  let maxD := t.sqrt 2 * e.map_size
  [e.agent_pos.1 / e.map_size, e.agent_pos.2 / e.map_size, e.agent_angle,
   rel, cf.2 / maxD, e.agent_mass / 10]

/-- Everything BlobEnv.step returns: observation, reward, the two episode
flags and (implicitly, through self) the updated environment. -/
structure SoloResult where
  obs : List ℚ
  reward : ℚ
  terminated : Bool
  truncated : Bool
  env : BlobEnv
deriving DecidableEq

/-- BlobEnv.step.  rng is the np_random stream of food respawn draws. -/
def soloStepFull (t : Trig) (rng : ℕ → Vec2) (e : BlobEnv) (a : ℤ) : SoloResult :=
  let steps1 := e.steps + 1
  let ang := soloNewAngle t e a
  let p := soloNewPos t e a
  let m := e.agent_mass - e.mass_decay_rate
  let curD := minDist t p e.foods
  let shaped : ℚ :=
    match e.prev_distance_to_food with
    | some pd => if 0 < e.foods.length then (pd - curD) * (2 / 100) else 0
    | none => 0
  let pick := soloPickup t p e.agent_radius e.foods
  let reward := 1 / 100 + shaped + 10 * (pick.2 : ℚ)
  let m1 := m + e.food_mass_gain * (pick.2 : ℚ)
  let newCount := e.max_foods - pick.1.length
  let foods1 := pick.1 ++ (List.range newCount).map (fun i => rng (e.rng_ctr + i))
  let prev1 : Option ℚ :=
    if 0 < pick.2 ∧ 0 < foods1.length then some (minDist t p foods1) else some curD
  let e1 : BlobEnv :=
    { e with agent_pos := p, agent_angle := ang, agent_mass := m1,
             foods := foods1, steps := steps1,
             foods_collected := e.foods_collected + pick.2,
             prev_distance_to_food := prev1,
             rng_ctr := e.rng_ctr + newCount }
  { obs := soloObs t e1
    reward := reward
    terminated := decide (m1 ≤ e.min_mass)
    truncated := decide (e.max_steps ≤ steps1)
    env := e1 }

/-- The environment after k calls of step with the action stream acts. -/
def soloRun (t : Trig) (rng : ℕ → Vec2) (acts : ℕ → ℤ) (e : BlobEnv) : ℕ → BlobEnv
  | 0 => e
  | k + 1 => (soloStepFull t rng (soloRun t rng acts e k) (acts k)).env

/-! ## Competitive environment (src/ml/blob_compete/blob_env.py, class
BlobCompeteEnv; src/ml/blob_compete/main.py replicates the same step logic in
SimpleBlobEnv) -/

/-- Seeded np_random draws, split by shape: position draws (uniform pairs)
and scalar angle draws, both consumed through one shared counter. -/
structure Rng where
  posD : ℕ → Vec2
  angD : ℕ → ℚ

/-- Full state of BlobCompeteEnv: constructor parameters and mutable episode
state.  mass_steal_rate is stored by the constructor; the stolen-mass
counters are initialized to zero. -/
structure BlobCompeteEnv where
  map_size : ℚ
  initial_mass : ℚ
  mass_decay_rate : ℚ
  movement_speed : ℚ
  turn_rate : ℚ
  food_mass_gain : ℚ
  min_mass : ℚ
  max_foods : ℕ
  agent_radius : ℚ
  mass_steal_rate : ℚ
  blob1_pos : Vec2
  blob1_angle : ℚ
  blob1_mass : ℚ
  blob2_pos : Vec2
  blob2_angle : ℚ
  blob2_mass : ℚ
  foods : List Vec2
  steps : ℕ
  max_steps : ℕ
  blob1_foods_collected : ℕ
  blob2_foods_collected : ℕ
  blob1_mass_stolen : ℕ
  blob2_mass_stolen : ℕ
  prev_distance_between_blobs : Option ℚ
  rng_ctr : ℕ
deriving DecidableEq

/-- The pickup loop of BlobCompeteEnv.step: for each food, blob 1's distance
is tested first; on a hit the food goes to blob 1, otherwise (elif) blob 2's
distance is tested.  Returns the kept foods and each blob's hit count. -/
def competePickup (t : Trig) (p1 p2 : Vec2) (r : ℚ) : List Vec2 → List Vec2 × ℕ × ℕ
  | [] => ([], 0, 0)
  | f :: fs =>
    let rest := competePickup t p1 p2 r fs
    if distQ t p1 f < r + 1 then (rest.1, rest.2.1 + 1, rest.2.2)
    else if distQ t p2 f < r + 1 then (rest.1, rest.2.1, rest.2.2 + 1)
    else (f :: rest.1, rest.2)

/-- Blob 1's new heading for an action value (0 steers left, anything else
steers right). -/
def blob1NewAngle (t : Trig) (e : BlobCompeteEnv) (a1 : ℤ) : ℚ :=
  wrapA t (if a1 = 0 then e.blob1_angle + e.turn_rate else e.blob1_angle - e.turn_rate)

/-- Blob 2's new heading. -/
def blob2NewAngle (t : Trig) (e : BlobCompeteEnv) (a2 : ℤ) : ℚ :=
  wrapA t (if a2 = 0 then e.blob2_angle + e.turn_rate else e.blob2_angle - e.turn_rate)

/-- Blob 1's new position: forward along the new heading, wrapped. -/
def blob1NewPos (t : Trig) (e : BlobCompeteEnv) (a1 : ℤ) : Vec2 :=
  (qmod (e.blob1_pos.1 + e.movement_speed * t.cos (blob1NewAngle t e a1)) e.map_size,
   qmod (e.blob1_pos.2 + e.movement_speed * t.sin (blob1NewAngle t e a1)) e.map_size)

/-- Blob 2's new position. -/
def blob2NewPos (t : Trig) (e : BlobCompeteEnv) (a2 : ℤ) : Vec2 :=
  (qmod (e.blob2_pos.1 + e.movement_speed * t.cos (blob2NewAngle t e a2)) e.map_size,
   qmod (e.blob2_pos.2 + e.movement_speed * t.sin (blob2NewAngle t e a2)) e.map_size)

/-- The pickup resolution of one step, applied to the post-move positions. -/
def competeStepPickup (t : Trig) (e : BlobCompeteEnv) (a : ℤ × ℤ) : List Vec2 × ℕ × ℕ :=
  competePickup t (blob1NewPos t e a.1) (blob2NewPos t e a.2) e.agent_radius e.foods

/-- BlobCompeteEnv._get_observation for one blob. -/
def competeObs (t : Trig) (e : BlobCompeteEnv) (blobId : ℕ) : List ℚ :=
  let my_pos := if blobId = 1 then e.blob1_pos else e.blob2_pos
  let my_angle := if blobId = 1 then e.blob1_angle else e.blob2_angle
  let my_mass := if blobId = 1 then e.blob1_mass else e.blob2_mass
  let other_pos := if blobId = 1 then e.blob2_pos else e.blob1_pos
  let dOther : Vec2 := (other_pos.1 - my_pos.1, other_pos.2 - my_pos.2)
  let relOther := wrapA t (t.atan2 dOther.2 dOther.1 - my_angle)
  let maxD := t.sqrt 2 * e.map_size
  let normDOther := distQ t my_pos other_pos / maxD
  let foodPart : ℚ × ℚ :=
    match closestFood t my_pos e.foods with
    | some fd =>
      let dir : Vec2 := (fd.1.1 - my_pos.1, fd.1.2 - my_pos.2)
      (fd.2 / maxD, wrapA t (t.atan2 dir.2 dir.1 - my_angle))
    | none => (1, 0)
  [my_pos.1 / e.map_size, my_pos.2 / e.map_size, my_angle, my_mass / 10,
   normDOther, relOther, foodPart.1, foodPart.2]

/-- The info dict built by BlobCompeteEnv.step. -/
structure CompeteInfo where
  blob1_mass : ℚ
  blob2_mass : ℚ
  blob1_foods : ℕ
  blob2_foods : ℕ
  blob1_stolen : ℕ
  blob2_stolen : ℕ
  winner : ℕ
deriving DecidableEq

/-- Everything BlobCompeteEnv.step returns, with the updated environment. -/
structure CompeteResult where
  obs1 : List ℚ
  obs2 : List ℚ
  reward1 : ℚ
  reward2 : ℚ
  terminated : Bool
  truncated : Bool
  info : CompeteInfo
  env : BlobCompeteEnv
deriving DecidableEq

/-- BlobCompeteEnv.step for the action pair (action1, action2). -/
def competeStepFull (t : Trig) (rng : Rng) (e : BlobCompeteEnv) (a : ℤ × ℤ) : CompeteResult :=
  let steps1 := e.steps + 1
  let ang1 := blob1NewAngle t e a.1
  let ang2 := blob2NewAngle t e a.2
  let p1 := blob1NewPos t e a.1
  let p2 := blob2NewPos t e a.2
  let m1 := e.blob1_mass - e.mass_decay_rate
  let m2 := e.blob2_mass - e.mass_decay_rate
  let pick := competeStepPickup t e a
  let reward1 := 1 / 100 + 5 * (pick.2.1 : ℚ)
  let reward2 := 1 / 100 + 5 * (pick.2.2 : ℚ)
  let m1f := m1 + e.food_mass_gain * (pick.2.1 : ℚ)
  let m2f := m2 + e.food_mass_gain * (pick.2.2 : ℚ)
  let newCount := e.max_foods - pick.1.length
  let foods1 := pick.1 ++ (List.range newCount).map (fun i => rng.posD (e.rng_ctr + i))
  let blob1_dead := decide (m1f ≤ e.min_mass)
  let blob2_dead := decide (m2f ≤ e.min_mass)
  let e1 : BlobCompeteEnv :=
    { e with blob1_pos := p1, blob1_angle := ang1, blob1_mass := m1f,
             blob2_pos := p2, blob2_angle := ang2, blob2_mass := m2f,
             foods := foods1, steps := steps1,
             blob1_foods_collected := e.blob1_foods_collected + pick.2.1,
             blob2_foods_collected := e.blob2_foods_collected + pick.2.2,
             rng_ctr := e.rng_ctr + newCount }
  { obs1 := competeObs t e1 1
    obs2 := competeObs t e1 2
    reward1 := reward1
    reward2 := reward2
    terminated := blob1_dead || blob2_dead
    truncated := decide (e.max_steps ≤ steps1)
    info :=
      { blob1_mass := m1f, blob2_mass := m2f,
        blob1_foods := e.blob1_foods_collected + pick.2.1,
        blob2_foods := e.blob2_foods_collected + pick.2.2,
        blob1_stolen := e.blob1_mass_stolen, blob2_stolen := e.blob2_mass_stolen,
        winner := if blob2_dead then 1 else if blob1_dead then 2 else 0 }
    env := e1 }

/-- The re-roll loop of BlobCompeteEnv.reset: redraw blob 2's position while
it is closer than map_size / 3 to blob 1.  The source's while loop is given
explicit fuel; none models a draw stream on which it never exits. -/
def reroll (t : Trig) (rng : Rng) (mapS : ℚ) (b1 : Vec2) : ℕ → ℕ → Option (Vec2 × ℕ)
  | fuel, c =>
    let p := rng.posD c
    if distQ t b1 p < mapS / 3 then
      match fuel with
      | 0 => none
      | fuel' + 1 => reroll t rng mapS b1 fuel' (c + 1)
    else some (p, c + 1)

/-- BlobCompeteEnv.reset: fresh seeded stream (counter restarts at 0), random
poses re-rolled until the blobs are far apart, initial masses, fresh foods,
zeroed counters. -/
def competeReset (t : Trig) (rng : Rng) (fuel : ℕ) (e : BlobCompeteEnv) :
    Option (List ℚ × List ℚ × BlobCompeteEnv) :=
  let b1p := rng.posD 0
  let b1a := rng.angD 1
  match reroll t rng e.map_size b1p fuel 2 with
  | none => none
  | some bc =>
    let b2a := rng.angD bc.2
    let foods := (List.range e.max_foods).map (fun i => rng.posD (bc.2 + 1 + i))
    let e1 : BlobCompeteEnv :=
      { e with blob1_pos := b1p, blob1_angle := b1a, blob1_mass := e.initial_mass,
               blob2_pos := bc.1, blob2_angle := b2a, blob2_mass := e.initial_mass,
               foods := foods, steps := 0,
               blob1_foods_collected := 0, blob2_foods_collected := 0,
               blob1_mass_stolen := 0, blob2_mass_stolen := 0,
               prev_distance_between_blobs := some (distQ t b1p bc.1),
               rng_ctr := bc.2 + 1 + e.max_foods }
    some (competeObs t e1 1, competeObs t e1 2, e1)

/-- The competitive environment after k steps with the action-pair stream. -/
def competeRun (t : Trig) (rng : Rng) (acts : ℕ → ℤ × ℤ) (e : BlobCompeteEnv) :
    ℕ → BlobCompeteEnv
  | 0 => e
  | k + 1 => (competeStepFull t rng (competeRun t rng acts e k) (acts k)).env

/-! ## Concrete evaluation fixtures -/

/-- A trig interpretation whose square root is the constant 1000, so every
distance is far outside pickup range. -/
def tW : Trig := { sin := fun _ => 0, cos := fun _ => 0, atan2 := fun _ _ => 0, sqrt := fun _ => 1000 }

/-- A trig interpretation whose square root is the constant 0, so every
distance is inside pickup range. -/
def tHit : Trig := { sin := fun _ => 0, cos := fun _ => 0, atan2 := fun _ _ => 0, sqrt := fun _ => 0 }

/-- A constant food-respawn stream. -/
def rngW : ℕ → Vec2 := fun _ => (50, 50)

/-- A constant seeded draw pair for the competitive environment. -/
def rngPairW : Rng := { posD := fun _ => (50, 50), angD := fun _ => 0 }

/-- A constant action stream. -/
def actsW : ℕ → ℤ := fun _ => 0

/-- A constant action-pair stream. -/
def actsPairW : ℕ → ℤ × ℤ := fun _ => (0, 0)

/-- A tiny concrete network (state size 1, two actions). -/
def pW : DQNParams :=
  { w1 := [[1]], b1 := [0], w2 := [[1]], b2 := [0], w3 := [[1], [0]], b3 := [0, 0] }

/-- A concrete terminal transition. -/
def trW : Transition := { state := [0], action := 0, reward := 3, next_state := [0], done := 1 }

/-- An abstract optimizer update instantiated with the identity. -/
def optStepW : DQNParams → List Transition → DQNParams := fun p _ => p

/-- A concrete agent whose replay buffer holds 10 transitions. -/
def agentW : BlobDQNAgent :=
  { gamma := 99 / 100, epsilon := 1, epsilon_end := 1 / 100, epsilon_decay := 199 / 200,
    q_network := pW, target_network := pW,
    replay_buffer := List.replicate 10 trW, buffer_capacity := 50000 }

/-- The solo environment of the starvation scenario: map side 100, mass 5,
decay 0.08, min mass 0.5, the other knobs at their constructor defaults. -/
def eW : BlobEnv :=
  { map_size := 100, initial_mass := 5, mass_decay_rate := 2 / 25,
    movement_speed := 6 / 5, turn_rate := 3 / 25, food_mass_gain := 2,
    min_mass := 1 / 2, max_foods := 8, agent_radius := 5 / 2,
    agent_pos := (50, 50), agent_angle := 0, agent_mass := 5,
    foods := List.replicate 8 (50, 50), steps := 0, max_steps := 1000,
    foods_collected := 0, prev_distance_to_food := some 1000, rng_ctr := 0 }

/-- A concrete competitive state one tick before simultaneous starvation:
default knobs (decay 0.05, min mass 0.5), both masses 0.55. -/
def eCW : BlobCompeteEnv :=
  { map_size := 100, initial_mass := 5, mass_decay_rate := 1 / 20,
    movement_speed := 6 / 5, turn_rate := 3 / 25, food_mass_gain := 3 / 2,
    min_mass := 1 / 2, max_foods := 10, agent_radius := 5 / 2, mass_steal_rate := 3 / 20,
    blob1_pos := (20, 20), blob1_angle := 0, blob1_mass := 11 / 20,
    blob2_pos := (80, 80), blob2_angle := 0, blob2_mass := 11 / 20,
    foods := List.replicate 10 (50, 50), steps := 0, max_steps := 2000,
    blob1_foods_collected := 0, blob2_foods_collected := 0,
    blob1_mass_stolen := 0, blob2_mass_stolen := 0,
    prev_distance_between_blobs := some 1000, rng_ctr := 0 }

/-! ## Helper lemmas -/

lemma dequePush_length {α : Type} (cap : ℕ) (buf : List α) (x : α) :
    (dequePush cap buf x).length = buf.length + 1 - (buf.length + 1 - cap) := by
  simp [dequePush]

lemma dequePush_length_le {α : Type} (cap : ℕ) (buf : List α) (x : α) :
    (dequePush cap buf x).length ≤ cap := by
  rw [dequePush_length]; omega

lemma pushMany_length_le {α : Type} (cap : ℕ) :
    ∀ (xs buf : List α), buf.length ≤ cap → (pushMany cap buf xs).length ≤ cap
  | [], buf, h => h
  | x :: xs, buf, h =>
    pushMany_length_le cap xs (dequePush cap buf x) (dequePush_length_le cap buf x)

lemma pushMany_eq_drop {α : Type} (cap : ℕ) :
    ∀ (xs buf : List α), buf.length ≤ cap → cap ≤ buf.length + xs.length →
      pushMany cap buf xs = (buf ++ xs).drop (buf.length + xs.length - cap)
  | [], buf, h1, h2 => by
    have hb : buf.length = cap := le_antisymm h1 (by simpa using h2)
    simp [pushMany, hb]
  | x :: xs, buf, h1, h2 => by
    by_cases hc : buf.length + 1 ≤ cap
    · have hpush : dequePush cap buf x = buf ++ [x] := by
        simp [dequePush, Nat.sub_eq_zero_of_le hc]
      have ih := pushMany_eq_drop cap xs (buf ++ [x])
        (by simpa using hc) (by simp at h2 ⊢; omega)
      have hstep : pushMany cap buf (x :: xs) = pushMany cap (buf ++ [x]) xs := by
        simp [pushMany, hpush]
      rw [hstep, ih]
      have hassoc : (buf ++ [x]) ++ xs = buf ++ x :: xs := by simp
      rw [hassoc]
      congr 1
      simp
      omega
    · have hb : buf.length = cap := by omega
      have hidx : (buf ++ [x]).length - cap = 1 := by simp [hb]
      have hpush : dequePush cap buf x = (buf ++ [x]).drop 1 := by
        simp only [dequePush]
        rw [hidx]
      have hlen : ((buf ++ [x]).drop 1).length = cap := by simp [hb]
      have ih := pushMany_eq_drop cap xs ((buf ++ [x]).drop 1)
        (le_of_eq hlen) (by rw [hlen]; omega)
      have hstep : pushMany cap buf (x :: xs) = pushMany cap ((buf ++ [x]).drop 1) xs := by
        simp [pushMany, hpush]
      rw [hstep, ih, hlen]
      have hone : (1 : ℕ) ≤ (buf ++ [x]).length := by simp
      rw [← List.drop_append_of_le_length hone, List.drop_drop]
      have hassoc : (buf ++ [x]) ++ xs = buf ++ x :: xs := by simp
      rw [hassoc]
      congr 1
      simp at hb ⊢
      omega

lemma soloStep_env_mass (t : Trig) (rng : ℕ → Vec2) (e : BlobEnv) (a : ℤ) :
    (soloStepFull t rng e a).env.agent_mass
      = e.agent_mass - e.mass_decay_rate
        + e.food_mass_gain * ((soloPickup t (soloNewPos t e a) e.agent_radius e.foods).2 : ℚ) := rfl

lemma soloStep_env_collected (t : Trig) (rng : ℕ → Vec2) (e : BlobEnv) (a : ℤ) :
    (soloStepFull t rng e a).env.foods_collected
      = e.foods_collected + (soloPickup t (soloNewPos t e a) e.agent_radius e.foods).2 := rfl

lemma soloStep_terminated (t : Trig) (rng : ℕ → Vec2) (e : BlobEnv) (a : ℤ) :
    (soloStepFull t rng e a).terminated
      = decide ((soloStepFull t rng e a).env.agent_mass ≤ e.min_mass) := rfl

lemma competeStep_mass1 (t : Trig) (rng : Rng) (e : BlobCompeteEnv) (a : ℤ × ℤ) :
    (competeStepFull t rng e a).env.blob1_mass
      = e.blob1_mass - e.mass_decay_rate
        + e.food_mass_gain * ((competeStepPickup t e a).2.1 : ℚ) := rfl

lemma competeStep_mass2 (t : Trig) (rng : Rng) (e : BlobCompeteEnv) (a : ℤ × ℤ) :
    (competeStepFull t rng e a).env.blob2_mass
      = e.blob2_mass - e.mass_decay_rate
        + e.food_mass_gain * ((competeStepPickup t e a).2.2 : ℚ) := rfl

lemma competeStep_collected1 (t : Trig) (rng : Rng) (e : BlobCompeteEnv) (a : ℤ × ℤ) :
    (competeStepFull t rng e a).env.blob1_foods_collected
      = e.blob1_foods_collected + (competeStepPickup t e a).2.1 := rfl

lemma competeStep_collected2 (t : Trig) (rng : Rng) (e : BlobCompeteEnv) (a : ℤ × ℤ) :
    (competeStepFull t rng e a).env.blob2_foods_collected
      = e.blob2_foods_collected + (competeStepPickup t e a).2.2 := rfl

lemma competeStep_terminated (t : Trig) (rng : Rng) (e : BlobCompeteEnv) (a : ℤ × ℤ) :
    (competeStepFull t rng e a).terminated
      = (decide ((competeStepFull t rng e a).env.blob1_mass ≤ e.min_mass)
         || decide ((competeStepFull t rng e a).env.blob2_mass ≤ e.min_mass)) := rfl

lemma competeStep_winner (t : Trig) (rng : Rng) (e : BlobCompeteEnv) (a : ℤ × ℤ) :
    (competeStepFull t rng e a).info.winner
      = (if decide ((competeStepFull t rng e a).env.blob2_mass ≤ e.min_mass) = true then 1
         else if decide ((competeStepFull t rng e a).env.blob1_mass ≤ e.min_mass) = true then 2
         else 0) := rfl

lemma distQ_tW (p f : Vec2) : distQ tW p f = 1000 := rfl

lemma distQ_tHit (p f : Vec2) : distQ tHit p f = 0 := rfl

lemma soloPickup_far (p : Vec2) (r : ℚ) (h : ¬ (1000 : ℚ) < r + 1) :
    ∀ foods : List Vec2, soloPickup tW p r foods = (foods, 0)
  | [] => rfl
  | f :: fs => by
    simp [soloPickup, soloPickup_far p r h fs, distQ_tW, h]

lemma competePickup_far (p1 p2 : Vec2) (r : ℚ) (h : ¬ (1000 : ℚ) < r + 1) :
    ∀ foods : List Vec2, competePickup tW p1 p2 r foods = (foods, 0, 0)
  | [] => rfl
  | f :: fs => by
    simp [competePickup, competePickup_far p1 p2 r h fs, distQ_tW, h]

lemma soloRun_params (t : Trig) (rng : ℕ → Vec2) (acts : ℕ → ℤ) (e : BlobEnv) :
    ∀ k, (soloRun t rng acts e k).mass_decay_rate = e.mass_decay_rate ∧
      (soloRun t rng acts e k).min_mass = e.min_mass ∧
      (soloRun t rng acts e k).agent_radius = e.agent_radius ∧
      (soloRun t rng acts e k).food_mass_gain = e.food_mass_gain
  | 0 => ⟨rfl, rfl, rfl, rfl⟩
  | k + 1 => soloRun_params t rng acts e k

lemma soloRun_mass_noPickup (t : Trig) (rng : ℕ → Vec2) (acts : ℕ → ℤ) (e : BlobEnv) :
    ∀ k : ℕ,
      (∀ j, j < k → (soloRun t rng acts e (j + 1)).foods_collected
        = (soloRun t rng acts e j).foods_collected) →
      (soloRun t rng acts e k).agent_mass = e.agent_mass - e.mass_decay_rate * k := by
  intro k
  induction k with
  | zero => intro _; simp [soloRun]
  | succ n ih =>
    intro h
    have hcol := h n (by omega)
    rw [show soloRun t rng acts e (n + 1)
        = (soloStepFull t rng (soloRun t rng acts e n) (acts n)).env from rfl,
      soloStep_env_collected] at hcol
    have hn : (soloPickup t (soloNewPos t (soloRun t rng acts e n) (acts n))
        (soloRun t rng acts e n).agent_radius (soloRun t rng acts e n).foods).2 = 0 := by
      omega
    have hmass := ih (fun j hj => h j (by omega))
    rw [show soloRun t rng acts e (n + 1)
        = (soloStepFull t rng (soloRun t rng acts e n) (acts n)).env from rfl,
      soloStep_env_mass, hn, hmass, (soloRun_params t rng acts e n).1]
    push_cast
    ring

lemma decayIter_epsilon_end (a : BlobDQNAgent) : ∀ n, (decayIter a n).epsilon_end = a.epsilon_end
  | 0 => rfl
  | n + 1 => decayIter_epsilon_end a n

lemma decayIter_epsilon_decay (a : BlobDQNAgent) : ∀ n, (decayIter a n).epsilon_decay = a.epsilon_decay
  | 0 => rfl
  | n + 1 => decayIter_epsilon_decay a n

lemma decayEpsilon_le (a : BlobDQNAgent) (h0 : 0 ≤ a.epsilon_end) (h1 : a.epsilon_end ≤ a.epsilon)
    (h2 : 0 ≤ a.epsilon_decay) (h3 : a.epsilon_decay ≤ 1) :
    (decayEpsilon a).epsilon ≤ a.epsilon := by
  have heps : 0 ≤ a.epsilon := le_trans h0 h1
  have hmul : a.epsilon * a.epsilon_decay ≤ a.epsilon := mul_le_of_le_one_right heps h3
  exact max_le h1 hmul

lemma decayEpsilon_floor (a : BlobDQNAgent) : a.epsilon_end ≤ (decayEpsilon a).epsilon :=
  le_max_left _ _

/-! ## Claim theorems -/

/-- C5: for every sequence of pushes the replay buffer's size never exceeds
its capacity; after capacity + 1 pushes the first-pushed transition is no
longer in the buffer and the size equals the capacity; concretely, a buffer
of capacity 3 receiving pushes a, b, c, d holds exactly [b, c, d], in
insertion order. -/
theorem c5_buffer_fifo {α : Type} (cap : ℕ) :
    (∀ xs : List α, (pushMany cap ([] : List α) xs).length ≤ cap) ∧
    (∀ (x : α) (xs : List α), xs.length = cap →
      pushMany cap ([] : List α) (x :: xs) = xs ∧
      (pushMany cap ([] : List α) (x :: xs)).length = cap) ∧
    (∀ a b c d : α, pushMany 3 ([] : List α) [a, b, c, d] = [b, c, d]) := by
  refine ⟨fun xs => pushMany_length_le cap xs [] (by simp),
    fun x xs hlen => ?_, fun a b c d => rfl⟩
  have h := pushMany_eq_drop cap (x :: xs) ([] : List α) (by simp) (by simp; omega)
  have hidx : ([] : List α).length + (x :: xs).length - cap = 1 := by
    simp [hlen]
  rw [hidx] at h
  simp at h
  exact ⟨h, by rw [h, hlen]⟩

/-- Witness for C5 at capacity 3 with pushes 10, 20, 30, 40. -/
theorem c5_buffer_fifo_witness :
    [(20 : ℕ), 30, 40].length = 3 ∧
    pushMany 3 ([] : List ℕ) (10 :: [20, 30, 40]) = [20, 30, 40] :=
  ⟨by decide, ((c5_buffer_fifo 3).2.1 10 [20, 30, 40] (by decide)).1⟩

/-- C6: when the replay buffer holds fewer transitions than the batch size,
train performs no update: it returns none (the no-update signal) and the
agent, its live network included, is exactly unchanged. -/
theorem c6_train_insufficient (optStep : DQNParams → List Transition → DQNParams)
    (agent : BlobDQNAgent) (batchSize : ℕ) (batch : List Transition)
    (h : agent.replay_buffer.length < batchSize) :
    train optStep agent batchSize batch = (none, agent) ∧
    (train optStep agent batchSize batch).2.q_network = agent.q_network := by
  constructor
  · simp [train, h]
  · simp [train, h]

/-- Witness for C6: batch size 64 on a buffer of 10 transitions. -/
theorem c6_train_insufficient_witness :
    agentW.replay_buffer.length < 64 ∧
    train optStepW agentW 64 [] = (none, agentW) :=
  ⟨by decide, (c6_train_insufficient optStepW agentW 64 [] (by decide)).1⟩

/-- C8: across successive decay_epsilon calls the exploration rate is
non-increasing and never drops below the configured floor, as long as the
floor is nonnegative, the current rate is at least the floor, and the decay
factor lies in [0, 1]. -/
theorem c8_epsilon_monotone (a : BlobDQNAgent) (h0 : 0 ≤ a.epsilon_end)
    (h1 : a.epsilon_end ≤ a.epsilon) (h2 : 0 ≤ a.epsilon_decay) (h3 : a.epsilon_decay ≤ 1) :
    ∀ n : ℕ, (decayIter a (n + 1)).epsilon ≤ (decayIter a n).epsilon ∧
      a.epsilon_end ≤ (decayIter a n).epsilon := by
  have floorInv : ∀ n, a.epsilon_end ≤ (decayIter a n).epsilon := by
    intro n
    induction n with
    | zero => exact h1
    | succ k ih =>
      have h := decayEpsilon_floor (decayIter a k)
      rw [decayIter_epsilon_end] at h
      exact h
  intro n
  refine ⟨?_, floorInv n⟩
  have h0' : 0 ≤ (decayIter a n).epsilon_end := by rw [decayIter_epsilon_end]; exact h0
  have h1' : (decayIter a n).epsilon_end ≤ (decayIter a n).epsilon := by
    rw [decayIter_epsilon_end]; exact floorInv n
  have h2' : 0 ≤ (decayIter a n).epsilon_decay := by rw [decayIter_epsilon_decay]; exact h2
  have h3' : (decayIter a n).epsilon_decay ≤ 1 := by rw [decayIter_epsilon_decay]; exact h3
  exact decayEpsilon_le _ h0' h1' h2' h3'

/-- Witness for C8: the concrete schedule 1.0, floor 0.01, factor 0.995,
checked across the third decay call. -/
theorem c8_epsilon_monotone_witness :
    ((0 : ℚ) ≤ agentW.epsilon_end ∧ agentW.epsilon_end ≤ agentW.epsilon ∧
      0 ≤ agentW.epsilon_decay ∧ agentW.epsilon_decay ≤ 1) ∧
    ((decayIter agentW 3).epsilon ≤ (decayIter agentW 2).epsilon ∧
      agentW.epsilon_end ≤ (decayIter agentW 2).epsilon) :=
  ⟨⟨by norm_num [agentW], by norm_num [agentW], by norm_num [agentW], by norm_num [agentW]⟩,
    c8_epsilon_monotone agentW (by norm_num [agentW]) (by norm_num [agentW])
      (by norm_num [agentW]) (by norm_num [agentW]) 2⟩

/-- C9: whenever train does update, the loss it returns is the MSE between
the live network's Q-values of the taken actions and the Bellman targets
computed from the frozen target network; and for a transition whose done
flag is 1 the bootstrap term vanishes, so the target is exactly the
reward. -/
theorem c9_bellman_target :
    (∀ (optStep : DQNParams → List Transition → DQNParams) (agent : BlobDQNAgent)
        (bs : ℕ) (batch : List Transition),
      ¬ agent.replay_buffer.length < bs →
      (train optStep agent bs batch).1 =
        some (mseLoss (currentQs agent.q_network batch)
          (computeTargets agent.target_network agent.gamma batch))) ∧
    (∀ (tgt : DQNParams) (gamma : ℚ) (tr : Transition), tr.done = 1 →
      bellmanTarget tgt gamma tr = tr.reward) := by
  constructor
  · intro optStep agent bs batch h
    simp [train, h]
  · intro tgt gamma tr h
    simp [bellmanTarget, h]

/-- Witness for C9: a full buffer with batch size 10 and a terminal
transition. -/
theorem c9_bellman_target_witness :
    (¬ agentW.replay_buffer.length < 10 ∧
      (train optStepW agentW 10 [trW]).1 =
        some (mseLoss (currentQs agentW.q_network [trW])
          (computeTargets agentW.target_network agentW.gamma [trW]))) ∧
    (trW.done = 1 ∧ bellmanTarget pW (99 / 100) trW = trW.reward) :=
  ⟨⟨by decide, c9_bellman_target.1 optStepW agentW 10 [trW] (by decide)⟩,
    ⟨rfl, c9_bellman_target.2 pW (99 / 100) trW rfl⟩⟩

/-- C2: on any tick with no pellet pickup (the pickup counters are
unchanged), the agent's mass drops by exactly the decay rate, hence strictly
decreases whenever the decay rate is positive; and step reports terminated
exactly when the post-tick mass is at or below the minimum-mass floor
(boundary inclusive), in both the solo and the competitive environment. -/
theorem c2_mass_decay_termination :
    (∀ (t : Trig) (rng : ℕ → Vec2) (e : BlobEnv) (a : ℤ),
      0 < e.mass_decay_rate →
      (soloStepFull t rng e a).env.foods_collected = e.foods_collected →
      (soloStepFull t rng e a).env.agent_mass = e.agent_mass - e.mass_decay_rate ∧
      (soloStepFull t rng e a).env.agent_mass < e.agent_mass ∧
      ((soloStepFull t rng e a).terminated = true ↔
        (soloStepFull t rng e a).env.agent_mass ≤ e.min_mass)) ∧
    (∀ (t : Trig) (rng : Rng) (e : BlobCompeteEnv) (a : ℤ × ℤ),
      0 < e.mass_decay_rate →
      (competeStepFull t rng e a).env.blob1_foods_collected = e.blob1_foods_collected →
      (competeStepFull t rng e a).env.blob2_foods_collected = e.blob2_foods_collected →
      ((competeStepFull t rng e a).env.blob1_mass = e.blob1_mass - e.mass_decay_rate ∧
        (competeStepFull t rng e a).env.blob1_mass < e.blob1_mass) ∧
      ((competeStepFull t rng e a).env.blob2_mass = e.blob2_mass - e.mass_decay_rate ∧
        (competeStepFull t rng e a).env.blob2_mass < e.blob2_mass) ∧
      ((competeStepFull t rng e a).terminated = true ↔
        ((competeStepFull t rng e a).env.blob1_mass ≤ e.min_mass ∨
          (competeStepFull t rng e a).env.blob2_mass ≤ e.min_mass))) := by
  constructor
  · intro t rng e a hd hc
    rw [soloStep_env_collected] at hc
    have hn : (soloPickup t (soloNewPos t e a) e.agent_radius e.foods).2 = 0 := by omega
    have hm : (soloStepFull t rng e a).env.agent_mass = e.agent_mass - e.mass_decay_rate := by
      rw [soloStep_env_mass, hn]
      push_cast
      ring
    refine ⟨hm, by rw [hm]; linarith, ?_⟩
    rw [soloStep_terminated]
    simp
  · intro t rng e a hd hc1 hc2
    rw [competeStep_collected1] at hc1
    rw [competeStep_collected2] at hc2
    have hn1 : (competeStepPickup t e a).2.1 = 0 := by omega
    have hn2 : (competeStepPickup t e a).2.2 = 0 := by omega
    have hm1 : (competeStepFull t rng e a).env.blob1_mass
        = e.blob1_mass - e.mass_decay_rate := by
      rw [competeStep_mass1, hn1]
      push_cast
      ring
    have hm2 : (competeStepFull t rng e a).env.blob2_mass
        = e.blob2_mass - e.mass_decay_rate := by
      rw [competeStep_mass2, hn2]
      push_cast
      ring
    refine ⟨⟨hm1, by rw [hm1]; linarith⟩, ⟨hm2, by rw [hm2]; linarith⟩, ?_⟩
    rw [competeStep_terminated]
    simp

/-- Witness for C2 on concrete no-pickup states of both environments. -/
theorem c2_mass_decay_termination_witness :
    ((0 : ℚ) < eW.mass_decay_rate ∧
      (soloStepFull tW rngW eW 0).env.foods_collected = eW.foods_collected ∧
      (soloStepFull tW rngW eW 0).env.agent_mass < eW.agent_mass) ∧
    ((0 : ℚ) < eCW.mass_decay_rate ∧
      (competeStepFull tW rngPairW eCW (0, 0)).env.blob1_foods_collected
        = eCW.blob1_foods_collected ∧
      (competeStepFull tW rngPairW eCW (0, 0)).env.blob1_mass < eCW.blob1_mass) := by
  have hfarS : ¬ (1000 : ℚ) < eW.agent_radius + 1 := by norm_num [eW]
  have hfarC : ¬ (1000 : ℚ) < eCW.agent_radius + 1 := by norm_num [eCW]
  have hdS : (0 : ℚ) < eW.mass_decay_rate := by norm_num [eW]
  have hdC : (0 : ℚ) < eCW.mass_decay_rate := by norm_num [eCW]
  have hcS : (soloStepFull tW rngW eW 0).env.foods_collected = eW.foods_collected := by
    rw [soloStep_env_collected, soloPickup_far _ _ hfarS]
    simp
  have hcC1 : (competeStepFull tW rngPairW eCW (0, 0)).env.blob1_foods_collected
      = eCW.blob1_foods_collected := by
    rw [competeStep_collected1]
    show eCW.blob1_foods_collected + (competePickup tW (blob1NewPos tW eCW 0)
      (blob2NewPos tW eCW 0) eCW.agent_radius eCW.foods).2.1 = eCW.blob1_foods_collected
    rw [competePickup_far _ _ _ hfarC]
    simp
  have hcC2 : (competeStepFull tW rngPairW eCW (0, 0)).env.blob2_foods_collected
      = eCW.blob2_foods_collected := by
    rw [competeStep_collected2]
    show eCW.blob2_foods_collected + (competePickup tW (blob1NewPos tW eCW 0)
      (blob2NewPos tW eCW 0) eCW.agent_radius eCW.foods).2.2 = eCW.blob2_foods_collected
    rw [competePickup_far _ _ _ hfarC]
    simp
  exact ⟨⟨hdS, hcS, (c2_mass_decay_termination.1 tW rngW eW 0 hdS hcS).2.1⟩,
    ⟨hdC, hcC1,
      ((c2_mass_decay_termination.2 tW rngPairW eCW (0, 0) hdC hcC1 hcC2).1).2⟩⟩

/-- C3 counterexample: step performs no validation of the action value.  On
the concrete solo state eW, the invalid action 2 is accepted and produces
exactly the same full step result as action 1 (it silently steers right);
no invalid-action condition exists in the step result at all. -/
theorem c3_invalid_action_counterexample :
    soloStepFull tW rngW eW 2 = soloStepFull tW rngW eW 1 := rfl

/-- C3 amended: step does not validate its action argument.  Action 0 steers
left and every other integer steers right: any nonzero action produces
exactly the result of action 1, in both environments and for either agent of
the competitive variant. -/
theorem c3_invalid_action_amended :
    (∀ (t : Trig) (rng : ℕ → Vec2) (e : BlobEnv) (a : ℤ), a ≠ 0 →
      soloStepFull t rng e a = soloStepFull t rng e 1) ∧
    (∀ (t : Trig) (rng : Rng) (e : BlobCompeteEnv) (a1 a2 : ℤ), a1 ≠ 0 →
      competeStepFull t rng e (a1, a2) = competeStepFull t rng e (1, a2)) ∧
    (∀ (t : Trig) (rng : Rng) (e : BlobCompeteEnv) (a1 a2 : ℤ), a2 ≠ 0 →
      competeStepFull t rng e (a1, a2) = competeStepFull t rng e (a1, 1)) := by
  refine ⟨fun t rng e a ha => ?_, fun t rng e a1 a2 ha => ?_, fun t rng e a1 a2 ha => ?_⟩
  · have h1 : soloNewAngle t e a = soloNewAngle t e 1 := by
      simp only [soloNewAngle]
      rw [if_neg ha, if_neg (by decide : (1 : ℤ) ≠ 0)]
    have h2 : soloNewPos t e a = soloNewPos t e 1 := by
      simp only [soloNewPos, h1]
    simp only [soloStepFull, h1, h2]
  · have h1 : blob1NewAngle t e a1 = blob1NewAngle t e 1 := by
      simp only [blob1NewAngle]
      rw [if_neg ha, if_neg (by decide : (1 : ℤ) ≠ 0)]
    have h2 : blob1NewPos t e a1 = blob1NewPos t e 1 := by
      simp only [blob1NewPos, h1]
    simp only [competeStepFull, competeStepPickup, h1, h2]
  · have h1 : blob2NewAngle t e a2 = blob2NewAngle t e 1 := by
      simp only [blob2NewAngle]
      rw [if_neg ha, if_neg (by decide : (1 : ℤ) ≠ 0)]
    have h2 : blob2NewPos t e a2 = blob2NewPos t e 1 := by
      simp only [blob2NewPos, h1]
    simp only [competeStepFull, competeStepPickup, h1, h2]

/-- Witness for C3 amended at the invalid actions 2 and 3. -/
theorem c3_invalid_action_amended_witness :
    ((2 : ℤ) ≠ 0 ∧ soloStepFull tW rngW eW 2 = soloStepFull tW rngW eW 1) ∧
    ((3 : ℤ) ≠ 0 ∧ competeStepFull tW rngPairW eCW (3, 0)
      = competeStepFull tW rngPairW eCW (1, 0)) :=
  ⟨⟨by decide, c3_invalid_action_amended.1 tW rngW eW 2 (by decide)⟩,
    ⟨by decide, c3_invalid_action_amended.2.1 tW rngPairW eCW 3 0 (by decide)⟩⟩

/-- C4: in the solo environment with initial mass 5, decay rate 0.08 and
minimum mass 0.5 (map side 100), if no pellet is ever collected then the
first 56 calls of step return terminated = false and the 57th returns
terminated = true, for every action sequence, trig interpretation and random
stream. -/
theorem c4_starvation_tick57 (t : Trig) (rng : ℕ → Vec2) (acts : ℕ → ℤ) (e : BlobEnv)
    (hmass : e.agent_mass = 5) (hdecay : e.mass_decay_rate = 2 / 25)
    (hmin : e.min_mass = 1 / 2) (hmap : e.map_size = 100)
    (hnp : ∀ j, j < 57 → (soloRun t rng acts e (j + 1)).foods_collected
      = (soloRun t rng acts e j).foods_collected) :
    (∀ k, k < 56 → (soloStepFull t rng (soloRun t rng acts e k) (acts k)).terminated = false) ∧
    (soloStepFull t rng (soloRun t rng acts e 56) (acts 56)).terminated = true := by
  have hmassAt : ∀ k, k ≤ 57 →
      (soloRun t rng acts e k).agent_mass = 5 - 2 / 25 * (k : ℚ) := by
    intro k hk
    rw [soloRun_mass_noPickup t rng acts e k (fun j hj => hnp j (by omega)), hmass, hdecay]
  have hstepMass : ∀ k, k < 57 →
      (soloStepFull t rng (soloRun t rng acts e k) (acts k)).env.agent_mass
        = 5 - 2 / 25 * ((k : ℚ) + 1) := by
    intro k hk
    have h1 : (soloStepFull t rng (soloRun t rng acts e k) (acts k)).env
        = soloRun t rng acts e (k + 1) := rfl
    rw [h1, hmassAt (k + 1) (by omega)]
    push_cast
    ring
  have hminAt : ∀ k, (soloRun t rng acts e k).min_mass = 1 / 2 := fun k => by
    rw [(soloRun_params t rng acts e k).2.1, hmin]
  constructor
  · intro k hk
    rw [soloStep_terminated, hstepMass k (by omega), hminAt k]
    apply decide_eq_false
    have hkq : (k : ℚ) ≤ 55 := by exact_mod_cast (by omega : k ≤ 55)
    intro hcon
    linarith
  · rw [soloStep_terminated, hstepMass 56 (by omega), hminAt 56]
    apply decide_eq_true
    norm_num

lemma soloRun_eW_noPickup :
    ∀ j, (soloRun tW rngW actsW eW (j + 1)).foods_collected
      = (soloRun tW rngW actsW eW j).foods_collected := by
  intro j
  have hr : (soloRun tW rngW actsW eW j).agent_radius = 5 / 2 :=
    (soloRun_params tW rngW actsW eW j).2.2.1
  have hfar : ¬ (1000 : ℚ) < (soloRun tW rngW actsW eW j).agent_radius + 1 := by
    rw [hr]
    norm_num
  show (soloStepFull tW rngW (soloRun tW rngW actsW eW j) (actsW j)).env.foods_collected
    = (soloRun tW rngW actsW eW j).foods_collected
  rw [soloStep_env_collected, soloPickup_far _ _ hfar]
  simp

/-- Witness for C4: the concrete scenario environment, the all-left action
stream and the far-food trig interpretation reach termination on tick 57. -/
theorem c4_starvation_tick57_witness :
    (eW.agent_mass = 5 ∧ eW.mass_decay_rate = 2 / 25 ∧ eW.min_mass = 1 / 2 ∧
      eW.map_size = 100) ∧
    (soloStepFull tW rngW (soloRun tW rngW actsW eW 50) (actsW 50)).terminated = false ∧
    (soloStepFull tW rngW (soloRun tW rngW actsW eW 56) (actsW 56)).terminated = true := by
  have h := c4_starvation_tick57 tW rngW actsW eW rfl rfl rfl rfl
    (fun j _ => soloRun_eW_noPickup j)
  exact ⟨⟨rfl, rfl, rfl, rfl⟩, h.1 50 (by omega), h.2⟩

lemma eCW_step_pickup : competeStepPickup tW eCW (0, 0) = (eCW.foods, 0, 0) := by
  have hfarC : ¬ (1000 : ℚ) < eCW.agent_radius + 1 := by norm_num [eCW]
  show competePickup tW (blob1NewPos tW eCW 0) (blob2NewPos tW eCW 0)
    eCW.agent_radius eCW.foods = (eCW.foods, 0, 0)
  exact competePickup_far _ _ _ hfarC _

lemma eCW_mass1_le : (competeStepFull tW rngPairW eCW (0, 0)).env.blob1_mass ≤ eCW.min_mass := by
  rw [competeStep_mass1, eCW_step_pickup]
  norm_num [eCW]

lemma eCW_mass2_le : (competeStepFull tW rngPairW eCW (0, 0)).env.blob2_mass ≤ eCW.min_mass := by
  rw [competeStep_mass2, eCW_step_pickup]
  norm_num [eCW]

/-- C1 counterexample: on the concrete competitive state eCW (both masses
0.55, decay 0.05, min mass 0.5, no pellet in range) both blobs reach the
floor on the same tick; step returns terminated = true but the info winner
field is not 0 (it is 1), so a simultaneous starvation is not reported as a
draw. -/
theorem c1_draw_counterexample :
    (competeStepFull tW rngPairW eCW (0, 0)).terminated = true ∧
    (competeStepFull tW rngPairW eCW (0, 0)).info.winner ≠ 0 := by
  constructor
  · rw [competeStep_terminated]
    simp only [Bool.or_eq_true, decide_eq_true_eq]
    exact Or.inl eCW_mass1_le
  · rw [competeStep_winner, if_pos (decide_eq_true eCW_mass2_le)]
    decide

/-- C1 amended: when both blobs' masses are at or below the floor after the
same tick, step returns terminated = true and info winner = 1 — blob 1 is
reported as the winner of a simultaneous starvation because the
blob2-dead test is taken first; winner = 0 only when no blob is dead. -/
theorem c1_winner_semantics (t : Trig) (rng : Rng) (e : BlobCompeteEnv) (a : ℤ × ℤ)
    (h1 : (competeStepFull t rng e a).env.blob1_mass ≤ e.min_mass)
    (h2 : (competeStepFull t rng e a).env.blob2_mass ≤ e.min_mass) :
    (competeStepFull t rng e a).terminated = true ∧
    (competeStepFull t rng e a).info.winner = 1 := by
  constructor
  · rw [competeStep_terminated]
    simp only [Bool.or_eq_true, decide_eq_true_eq]
    exact Or.inl h1
  · rw [competeStep_winner, if_pos (decide_eq_true h2)]

/-- Witness for C1 amended on the concrete simultaneous-starvation state. -/
theorem c1_winner_semantics_witness :
    ((competeStepFull tW rngPairW eCW (0, 0)).env.blob1_mass ≤ eCW.min_mass ∧
      (competeStepFull tW rngPairW eCW (0, 0)).env.blob2_mass ≤ eCW.min_mass) ∧
    ((competeStepFull tW rngPairW eCW (0, 0)).terminated = true ∧
      (competeStepFull tW rngPairW eCW (0, 0)).info.winner = 1) :=
  ⟨⟨eCW_mass1_le, eCW_mass2_le⟩,
    c1_winner_semantics tW rngPairW eCW (0, 0) eCW_mass1_le eCW_mass2_le⟩

/-- C7: the pellet tie-break is deterministic in blob 1's favor.  If both
blobs are within pickup range of the same pellet on the same tick, the
pickup resolution removes the pellet, increments blob 1's hit count and
leaves blob 2's unchanged; and within step each blob's pickup reward (+5
per hit), mass gain and pickup counter are driven exactly by its own hit
count, so the contested pellet pays out to blob 1 only. -/
theorem c7_tiebreak :
    (∀ (t : Trig) (p1 p2 : Vec2) (r : ℚ) (f : Vec2) (fs : List Vec2),
      distQ t p1 f < r + 1 → distQ t p2 f < r + 1 →
      competePickup t p1 p2 r (f :: fs)
        = ((competePickup t p1 p2 r fs).1,
           (competePickup t p1 p2 r fs).2.1 + 1,
           (competePickup t p1 p2 r fs).2.2)) ∧
    (∀ (t : Trig) (rng : Rng) (e : BlobCompeteEnv) (a : ℤ × ℤ),
      (competeStepFull t rng e a).reward1
        = 1 / 100 + 5 * ((competeStepPickup t e a).2.1 : ℚ) ∧
      (competeStepFull t rng e a).reward2
        = 1 / 100 + 5 * ((competeStepPickup t e a).2.2 : ℚ) ∧
      (competeStepFull t rng e a).env.blob1_mass
        = e.blob1_mass - e.mass_decay_rate
          + e.food_mass_gain * ((competeStepPickup t e a).2.1 : ℚ) ∧
      (competeStepFull t rng e a).env.blob2_mass
        = e.blob2_mass - e.mass_decay_rate
          + e.food_mass_gain * ((competeStepPickup t e a).2.2 : ℚ) ∧
      (competeStepFull t rng e a).env.blob1_foods_collected
        = e.blob1_foods_collected + (competeStepPickup t e a).2.1 ∧
      (competeStepFull t rng e a).env.blob2_foods_collected
        = e.blob2_foods_collected + (competeStepPickup t e a).2.2) := by
  constructor
  · intro t p1 p2 r f fs h1 h2
    simp [competePickup, h1]
  · intro t rng e a
    exact ⟨rfl, rfl, competeStep_mass1 t rng e a, competeStep_mass2 t rng e a,
      competeStep_collected1 t rng e a, competeStep_collected2 t rng e a⟩

/-- Witness for C7: a pellet within range of both blobs goes to blob 1. -/
theorem c7_tiebreak_witness :
    (distQ tHit ((0 : ℚ), (0 : ℚ)) (2, 2) < 5 / 2 + 1 ∧
      distQ tHit ((1 : ℚ), (1 : ℚ)) (2, 2) < 5 / 2 + 1) ∧
    competePickup tHit (0, 0) (1, 1) (5 / 2) [(2, 2)]
      = ((competePickup tHit (0, 0) (1, 1) (5 / 2) []).1,
         (competePickup tHit (0, 0) (1, 1) (5 / 2) []).2.1 + 1,
         (competePickup tHit (0, 0) (1, 1) (5 / 2) []).2.2) := by
  have h1 : distQ tHit ((0 : ℚ), (0 : ℚ)) (2, 2) < 5 / 2 + 1 := by
    rw [distQ_tHit]; norm_num
  have h2 : distQ tHit ((1 : ℚ), (1 : ℚ)) (2, 2) < 5 / 2 + 1 := by
    rw [distQ_tHit]; norm_num
  exact ⟨⟨h1, h2⟩, c7_tiebreak.1 tHit (0, 0) (1, 1) (5 / 2) (2, 2) [] h1 h2⟩

/-- C10: the mass_steal_rate constructor knob has no behavioural effect.
Two runs that differ only in it produce identical step results (observations,
rewards, flags, info) and identical reset results up to the stored knob
itself; reset zeroes the stolen-mass counters; and no sequence of steps ever
changes them, so they are 0 in every reachable state. -/
theorem c10_steal_rate_unused :
    (∀ (t : Trig) (rng : Rng) (e : BlobCompeteEnv) (a : ℤ × ℤ) (r : ℚ),
      competeStepFull t rng { e with mass_steal_rate := r } a
        = { competeStepFull t rng e a with
            env := { (competeStepFull t rng e a).env with mass_steal_rate := r } }) ∧
    (∀ (t : Trig) (rng : Rng) (fuel : ℕ) (e : BlobCompeteEnv) (r : ℚ),
      competeReset t rng fuel { e with mass_steal_rate := r }
        = Option.map (fun out => (out.1, out.2.1, { out.2.2 with mass_steal_rate := r }))
            (competeReset t rng fuel e)) ∧
    (∀ (t : Trig) (rng : Rng) (fuel : ℕ) (e : BlobCompeteEnv),
      Option.map (fun out => (out.2.2.blob1_mass_stolen, out.2.2.blob2_mass_stolen))
          (competeReset t rng fuel e)
        = Option.map (fun _ => ((0 : ℕ), (0 : ℕ))) (competeReset t rng fuel e)) ∧
    (∀ (t : Trig) (rng : Rng) (acts : ℕ → ℤ × ℤ) (e : BlobCompeteEnv) (n : ℕ),
      (competeRun t rng acts e n).blob1_mass_stolen = e.blob1_mass_stolen ∧
      (competeRun t rng acts e n).blob2_mass_stolen = e.blob2_mass_stolen) := by
  refine ⟨fun t rng e a r => rfl, fun t rng fuel e r => ?_, fun t rng fuel e => ?_,
    fun t rng acts e n => ?_⟩
  · have hsc : reroll t rng ({ e with mass_steal_rate := r }).map_size (rng.posD 0) fuel 2
        = reroll t rng e.map_size (rng.posD 0) fuel 2 := rfl
    simp only [competeReset, hsc]
    cases reroll t rng e.map_size (rng.posD 0) fuel 2 with
    | none => rfl
    | some bc => rfl
  · simp only [competeReset]
    cases reroll t rng e.map_size (rng.posD 0) fuel 2 with
    | none => rfl
    | some bc => rfl
  · induction n with
    | zero => exact ⟨rfl, rfl⟩
    | succ k ih => exact ih
